import Mathlib

/-!
Verification of the ArchiFieldNote field-annotation tool core: a shallow
embedding in Lean 4 of the history engine (hooks/use-undo.ts), the geometry
library (lib/canvas-utils.ts), the calibration flow (hooks/use-project.ts),
the canvas drawing state machine (the map-canvas component), and the export
measurement computation (lib/export-utils.ts), together with theorems about
the embedded definitions.

JavaScript numbers are modelled as real numbers; JavaScript `null` for an
optional number is modelled with `Option`.  Array indexing that can hit
`undefined` (and hence throw a `TypeError` downstream) is modelled with
`Option`-valued lookups.
-/

namespace ArchiFieldNote

/-! ## History Engine — src/hooks/use-undo.ts

The hook keeps two pieces of state: `history : HistoryState[]` and
`currentIndex : number` (initially `-1`).  Snapshots are deep-copied scene
object arrays; here the snapshot type is an arbitrary type `σ` (the JSON
deep copy of an immutable value is the value itself). -/

structure UndoState (σ : Type) where
  history : List σ
  currentIndex : Int
  deriving DecidableEq, Repr

/-- Initial hook state: `useState([])`, `useState(-1)`. -/
def initialUndoState {σ : Type} : UndoState σ :=
  { history := [], currentIndex := -1 }

/-- `const canUndo = currentIndex > 0` (use-undo.ts line 14). -/
def canUndo {σ : Type} (s : UndoState σ) : Bool :=
  decide (0 < s.currentIndex)

/-- `const canRedo = currentIndex < history.length - 1` (use-undo.ts line 15). -/
def canRedo {σ : Type} (s : UndoState σ) : Bool :=
  decide (s.currentIndex < (s.history.length : Int) - 1)

/-- `pushState` (use-undo.ts lines 17-31): truncate after `currentIndex`
(`prev.slice(0, currentIndex + 1)`), append the snapshot, evict the oldest
entry when the log exceeds `maxHistory` (`shift()`), and set
`currentIndex` to `Math.min(prev + 1, maxHistory - 1)`. -/
def pushState {σ : Type} (maxHistory : Nat) (snapshot : σ) (s : UndoState σ) :
    UndoState σ :=
  let newHistory := s.history.take (s.currentIndex + 1).toNat ++ [snapshot]
  let history' := if maxHistory < newHistory.length then newHistory.drop 1 else newHistory
  { history := history'
    currentIndex := min (s.currentIndex + 1) ((maxHistory : Int) - 1) }

/-- `undo` (use-undo.ts lines 33-38): returns `null` when `canUndo` is
false; otherwise decrements the index and returns the snapshot stored
there.  The returned `Option σ` models `MapObject[] | null`. -/
def undo {σ : Type} (s : UndoState σ) : Option σ × UndoState σ :=
  if canUndo s then
    let newIndex := s.currentIndex - 1
    (s.history.get? newIndex.toNat, { s with currentIndex := newIndex })
  else
    (none, s)

/-- `redo` (use-undo.ts lines 40-45): returns `null` when `canRedo` is
false; otherwise increments the index and returns the snapshot stored
there. -/
def redo {σ : Type} (s : UndoState σ) : Option σ × UndoState σ :=
  if canRedo s then
    let newIndex := s.currentIndex + 1
    (s.history.get? newIndex.toNat, { s with currentIndex := newIndex })
  else
    (none, s)

/-- One external call to the hook: `pushState`, `undo` or `redo`. -/
inductive UndoOp (σ : Type) where
  | push (snapshot : σ)
  | stepBack
  | stepForward
  deriving DecidableEq, Repr

/-- Apply one call to the hook state (the returned snapshot is dropped;
applying it to the scene is the caller's business). -/
def applyUndoOp {σ : Type} (maxHistory : Nat) (s : UndoState σ) :
    UndoOp σ → UndoState σ
  | .push snapshot => pushState maxHistory snapshot s
  | .stepBack => (undo s).2
  | .stepForward => (redo s).2

/-- Run a sequence of hook calls from the initial state. -/
def runUndoOps {σ : Type} (maxHistory : Nat) (ops : List (UndoOp σ)) : UndoState σ :=
  ops.foldl (applyUndoOp maxHistory) initialUndoState

/-! ## Geometry Library — src/lib/canvas-utils.ts

Scene coordinates `{x, y}` are JavaScript numbers, modelled as reals.
The JavaScript falsiness test `!pixelToMeterRatio` on a `number | null`
holds for `null` and for `0`; with the ratio modelled as `Option ℝ` it is
`ratio.getD 0 = 0`. -/

/-- A scene-space point `{x, y}`. -/
structure Point where
  x : ℝ
  y : ℝ

/-- The default value used for in-range `List.getD` lookups (the source
indexes arrays only at in-bounds positions in these functions). -/
def origin : Point := ⟨0, 0⟩

/-- `getDistance` (canvas-utils.ts lines 38-40):
`Math.sqrt(Math.pow(p2.x - p1.x, 2) + Math.pow(p2.y - p1.y, 2))`. -/
noncomputable def getDistance (p1 p2 : Point) : ℝ :=
  Real.sqrt ((p2.x - p1.x) ^ 2 + (p2.y - p1.y) ^ 2)

open Classical in
/-- `isPointInPolygon` (canvas-utils.ts lines 42-55): even-odd ray casting.
The loop `for (let i = 0, j = vertices.length - 1; i < vertices.length; j = i++)`
pairs index `i` with `j = (i + n - 1) % n` (that is, `n - 1` for `i = 0`
and `i - 1` afterwards) and toggles `inside` when the condition
`yi > point.y !== yj > point.y && point.x < (xj - xi) * (point.y - yi) / (yj - yi) + xi`
holds. -/
noncomputable def isPointInPolygon (point : Point) (vertices : List Point) : Bool :=
  (List.range vertices.length).foldl
    (fun inside i =>
      let j := (i + vertices.length - 1) % vertices.length
      let vi := vertices.getD i origin
      let vj := vertices.getD j origin
      if ((vi.y > point.y) ≠ (vj.y > point.y)) ∧
          point.x < (vj.x - vi.x) * (point.y - vi.y) / (vj.y - vi.y) + vi.x
      then !inside else inside)
    false

open Classical in
/-- `isPointNearLine` (canvas-utils.ts lines 57-90): perpendicular
projection onto the segment, clamped to the endpoints (`param` stays `-1`
when the segment has zero length, so the start point is used), then a
strict comparison of the distance against the threshold. -/
noncomputable def isPointNearLine (point lineStart lineEnd : Point)
    (threshold : ℝ) : Bool :=
  let A := point.x - lineStart.x
  let B := point.y - lineStart.y
  let C := lineEnd.x - lineStart.x
  let D := lineEnd.y - lineStart.y
  let dot := A * C + B * D
  let lenSq := C * C + D * D
  let param := if lenSq ≠ 0 then dot / lenSq else -1
  let xx := if param < 0 then lineStart.x
    else if param > 1 then lineEnd.x
    else lineStart.x + param * C
  let yy := if param < 0 then lineStart.y
    else if param > 1 then lineEnd.y
    else lineStart.y + param * D
  let dx := point.x - xx
  let dy := point.y - yy
  decide (Real.sqrt (dx * dx + dy * dy) < threshold)

/-- `getPolygonArea` (canvas-utils.ts lines 92-105): returns 0 when the
ring has fewer than 3 vertices or the ratio is falsy (`null` or `0`);
otherwise the shoelace loop `area += xi * yj; area -= xj * yi` with
`j = (i + 1) % n`, then `Math.abs(area) / 2`, then division by the squared
pixel-to-meter ratio. -/
noncomputable def getPolygonArea (vertices : List Point)
    (pixelToMeterRatio : Option ℝ) : ℝ :=
  if vertices.length < 3 ∨ pixelToMeterRatio.getD 0 = 0 then 0
  else
    let n := vertices.length
    let area := (List.range n).foldl
      (fun area i =>
        let vi := vertices.getD i origin
        let vj := vertices.getD ((i + 1) % n) origin
        area + vi.x * vj.y - vj.x * vi.y)
      0
    let r := pixelToMeterRatio.getD 0
    |area| / 2 / (r * r)

/-- The shoelace sum `∑ i < n, (x i * y ((i+1) % n) - x ((i+1) % n) * y i)`
of a ring — the quantity accumulated by the `getPolygonArea` loop, written
as a `Finset` sum for the specification-facing statements. -/
noncomputable def shoelaceSum (vertices : List Point) : ℝ :=
  ∑ i in Finset.range vertices.length,
    ((vertices.getD i origin).x * (vertices.getD ((i + 1) % vertices.length) origin).y
      - (vertices.getD ((i + 1) % vertices.length) origin).x * (vertices.getD i origin).y)

/-- `getLineLength` (canvas-utils.ts lines 107-115): the pixel distance
between the two endpoints (the source names them `start` and `end`),
divided by the ratio when one is set (raw pixel distance when the ratio is
falsy). -/
noncomputable def getLineLength (startP endP : Point)
    (pixelToMeterRatio : Option ℝ) : ℝ :=
  let pixelDistance := getDistance startP endP
  if pixelToMeterRatio.getD 0 = 0 then pixelDistance
  else pixelDistance / pixelToMeterRatio.getD 0

/-- `isPointNearPath` (canvas-utils.ts lines 179-190): true when the point
is near any consecutive segment `path[i], path[i+1]`, `i < path.length - 1`. -/
noncomputable def isPointNearPath (point : Point) (path : List Point)
    (threshold : ℝ) : Bool :=
  (List.range (path.length - 1)).any fun i =>
    isPointNearLine point (path.getD i origin) (path.getD (i + 1) origin) threshold

/-- `getPolylineLength` (canvas-utils.ts lines 192-203): 0 for fewer than
2 vertices; otherwise the sum of consecutive segment distances, divided by
the ratio when one is set. -/
noncomputable def getPolylineLength (vertices : List Point)
    (pixelToMeterRatio : Option ℝ) : ℝ :=
  if vertices.length < 2 then 0
  else
    let totalDist := (List.range (vertices.length - 1)).foldl
      (fun acc i => acc + getDistance (vertices.getD i origin) (vertices.getD (i + 1) origin))
      0
    if pixelToMeterRatio.getD 0 = 0 then totalDist
    else totalDist / pixelToMeterRatio.getD 0

/-- The hatch pattern names accepted by `drawHatchPattern`. -/
inductive HatchPattern where
  | diagonal
  | dotted
  | crosshatch
  deriving DecidableEq, Repr

/-- A primitive emitted by `drawHatchPattern` onto the 2D context: a
stroked line or a filled dot (`ctx.arc` of the given radius).  The
clipping of the primitives to the ring is performed by the canvas
(`ctx.clip()`), not by the enumeration. -/
inductive HatchPrim where
  | line (p q : Point)
  | dot (center : Point) (radius : ℝ)

/-- The values taken by the loop variable of a JavaScript loop
`for (let i = start; i < stop; i += step)` over numbers.  For `step ≤ 0`
and `start < stop` the source loop would never terminate; the model
restricts to the terminating case and yields no iterations otherwise. -/
noncomputable def floatLoop (start stop step : ℝ) : List ℝ :=
  if 0 < step then
    (List.range (⌈(stop - start) / step⌉.toNat)).map fun k => start + k * step
  else []

set_option linter.unusedVariables false in
/-- `drawHatchPattern` (canvas-utils.ts lines 117-177), modelled as the
sequence of geometric primitives drawn on the context.  The function first
builds the clipping path with `ctx.moveTo(vertices[0].x, vertices[0].y)`:
on an empty vertex list `vertices[0]` is `undefined` and the member access
throws a `TypeError`, modelled as `none`.  Otherwise it computes the
bounding box and emits the 45° diagonal family (for `diagonal` and
`crosshatch`), the perpendicular family (for `crosshatch`), and a dot grid
(for `dotted`).  The `color` argument only sets `strokeStyle`/`fillStyle`. -/
noncomputable def drawHatchPattern (vertices : List Point)
    (pattern : HatchPattern) (color : String) (spacing lineWidth : ℝ) :
    Option (List HatchPrim) :=
  match vertices with
  | [] => none
  | v0 :: _ =>
    let minX := (vertices.map Point.x).foldl min v0.x
    let maxX := (vertices.map Point.x).foldl max v0.x
    let minY := (vertices.map Point.y).foldl min v0.y
    let maxY := (vertices.map Point.y).foldl max v0.y
    let h := maxY - minY
    let fam1 :=
      if pattern = .diagonal ∨ pattern = .crosshatch then
        (floatLoop (minX - h) (maxX + h) spacing).map fun i =>
          HatchPrim.line ⟨i, minY⟩ ⟨i + h, maxY⟩
      else []
    let fam2 :=
      if pattern = .crosshatch then
        (floatLoop (minX - h) (maxX + h) spacing).map fun i =>
          HatchPrim.line ⟨i + h, minY⟩ ⟨i, maxY⟩
      else []
    let dots :=
      if pattern = .dotted then
        (floatLoop minX maxX spacing).flatMap fun x =>
          (floatLoop minY maxY spacing).map fun y =>
            HatchPrim.dot ⟨x, y⟩ (lineWidth + 1)
      else []
    some (fam1 ++ fam2 ++ dots)

/-! ## Calibration — src/hooks/use-project.ts

Only the calibration-relevant fields of a `Project` are modelled
(identifier, name, images, timestamps do not enter the claims). -/

/-- The `calibrationPoints` record `{ start, end }` (the source field
`end` is a Lean keyword, hence `endP`). -/
structure CalibrationPoints where
  start : Point
  endP : Point

/-- The calibration-relevant slice of a `Project` row. -/
structure ProjectState where
  calibrationPoints : Option CalibrationPoints
  pixelToMeterRatio : Option ℝ

/-- `setCalibration` (use-project.ts lines 121-137): computes
`pixelToMeterRatio = pixelDistance / realWorldMeters` and atomically
replaces both calibration fields of the current project. -/
noncomputable def setCalibration (project : ProjectState)
    (points : CalibrationPoints) (realWorldMeters pixelDistance : ℝ) :
    ProjectState :=
  { project with
    calibrationPoints := some points
    pixelToMeterRatio := some (pixelDistance / realWorldMeters) }

/-- The full calibrate flow: the second pointer-down of the calibrate tool
computes `pixelDistance = getDistance(start, end)` and raises
`onCalibrationComplete` (map-canvas `handlePointerDown`); confirming the
dialog with the real-world distance calls `setCalibration` with that
stored pixel distance (`confirmCalibration` in the page component). -/
noncomputable def completeCalibration (project : ProjectState)
    (start endP : Point) (realWorldMeters : ℝ) : ProjectState :=
  setCalibration project ⟨start, endP⟩ realWorldMeters (getDistance start endP)

/-! ## Canvas drawing state machine — the MapCanvas component
(src/unnamed/part_002, second file) wired to the page component
(src/unnamed/part_011)

The model covers the state touched by the drawing claims: the active tool
mode, the transient drawing buffer (`drawingVertices`, `isDrawing`), the
committed scene objects, and the pending calibration.  A committed object
keeps its database `type` tag and vertices; identifiers, names, styles,
metadata, timestamps and the history `pushState` call are elided, as are
the selection / image-drag / vertex-drag branches of the pointer handlers,
which never touch the drawing buffer. -/

/-- The `ToolMode` union of the MapCanvas (part_002 lines 807-820).  The
source tag `"match"` is a Lean keyword, hence `styleMatch`. -/
inductive ToolMode where
  | select
  | pan
  | polygon
  | threshold
  | calibrate
  | freehand
  | editVertices
  | eraser
  | highlighter
  | circle
  | square
  | triangle
  | styleMatch
  deriving DecidableEq, Repr

/-- The database tag for a committed primitive shape
(`handleShapeComplete` stores the tool mode string itself). -/
def ToolMode.dbTag : ToolMode → String
  | .circle => "circle"
  | .square => "square"
  | .triangle => "triangle"
  | .polygon => "polygon"
  | .threshold => "threshold"
  | _ => "freehand"

/-- A committed scene object: its database `type` tag and its vertices. -/
structure MapObject where
  type : String
  vertices : List Point

/-- The drawing-relevant state of the canvas plus the page component. -/
structure CanvasState where
  toolMode : ToolMode
  drawingVertices : List Point
  isDrawing : Bool
  objects : List MapObject
  pendingCalibration : Option (Point × Point × ℝ)

/-- `handlePointerDown` (part_002 lines 1522-1633), restricted to the
branches that touch the drawing buffer: polygon appends a vertex;
freehand/highlighter and circle/square/triangle restart the buffer at the
clicked point; threshold/calibrate buffer a start point on the first click
and complete on the second (`onThresholdComplete` commits a 2-vertex
`"threshold"` object and switches to select via `handleThresholdComplete`;
`onCalibrationComplete` stores the pending calibration with
`pixelDistance = getDistance(start, end)`).  The select / editVertices /
eraser / styleMatch hit-testing branches and pan leave the buffer alone. -/
noncomputable def handlePointerDown (coords : Point) (s : CanvasState) :
    CanvasState :=
  if s.toolMode = .pan then s
  else if s.toolMode = .polygon then
    { s with drawingVertices := s.drawingVertices ++ [coords], isDrawing := true }
  else if s.toolMode = .freehand ∨ s.toolMode = .highlighter then
    { s with drawingVertices := [coords], isDrawing := true }
  else if s.toolMode = .circle ∨ s.toolMode = .square ∨ s.toolMode = .triangle then
    { s with drawingVertices := [coords], isDrawing := true }
  else if s.toolMode = .threshold ∨ s.toolMode = .calibrate then
    if s.drawingVertices.length = 0 then
      { s with drawingVertices := [coords], isDrawing := true }
    else if s.drawingVertices.length = 1 then
      let start := s.drawingVertices.getD 0 origin
      if s.toolMode = .threshold then
        { s with
          objects := s.objects ++ [⟨"threshold", [start, coords]⟩]
          toolMode := .select
          drawingVertices := []
          isDrawing := false }
      else
        { s with
          pendingCalibration := some (start, coords, getDistance start coords)
          drawingVertices := []
          isDrawing := false }
    else s
  else s

/-- `handlePointerMove` (part_002 lines 1652-1705), restricted to the
drawing branches (the image-drag and vertex-drag branches do not touch the
buffer).  In freehand/highlighter mode a point is appended only when its
distance from the last buffered point exceeds
`displaySettings.freehandSmoothing || 3`; in circle/square/triangle mode
the second buffered point follows the pointer. -/
noncomputable def handlePointerMove (freehandSmoothing : ℝ) (coords : Point)
    (s : CanvasState) : CanvasState :=
  if s.isDrawing = false then s
  else if s.toolMode = .freehand ∨ s.toolMode = .highlighter then
    let minDistance := if freehandSmoothing = 0 then 3 else freehandSmoothing
    match s.drawingVertices.getLast? with
    | some lastPoint =>
        if minDistance < getDistance lastPoint coords then
          { s with drawingVertices := s.drawingVertices ++ [coords] }
        else s
    | none => s
  else if s.toolMode = .circle ∨ s.toolMode = .square ∨ s.toolMode = .triangle then
    if 0 < s.drawingVertices.length then
      { s with drawingVertices := [s.drawingVertices.getD 0 origin, coords] }
    else s
  else s

/-- `handlePointerUp` (part_002 lines 1707-1733) combined with the page
handlers (part_011): with more than 5 buffered points in
freehand/highlighter mode, `onFreehandComplete` commits the buffer as a
`"freehand"`-tagged object (`handleFreehandComplete`; the tool returns to
select unless it is the highlighter) and the buffer is cleared; a
circle/square/triangle with exactly 2 buffered points is committed under
its own tag and the tool returns to select.  In every other case the
handler returns without touching the state. -/
def handlePointerUp (s : CanvasState) : CanvasState :=
  if (s.toolMode = .freehand ∨ s.toolMode = .highlighter) ∧ s.isDrawing = true ∧
      5 < s.drawingVertices.length then
    { s with
      objects := s.objects ++ [⟨"freehand", s.drawingVertices⟩]
      toolMode := if s.toolMode ≠ .highlighter then .select else s.toolMode
      drawingVertices := []
      isDrawing := false }
  else if (s.toolMode = .circle ∨ s.toolMode = .square ∨ s.toolMode = .triangle) ∧
      s.isDrawing = true ∧ s.drawingVertices.length = 2 then
    { s with
      objects := s.objects ++ [⟨s.toolMode.dbTag, s.drawingVertices⟩]
      toolMode := .select
      drawingVertices := []
      isDrawing := false }
  else s

/-- `finishPolygon` (part_002 lines 1735-1741) combined with
`handlePolygonComplete` (part_011 lines 375-395): with at least 3 buffered
vertices the buffer is committed as a `"polygon"` object and the tool
returns to select; in every case the buffer is cleared. -/
def finishPolygon (s : CanvasState) : CanvasState :=
  let s' :=
    if 3 ≤ s.drawingVertices.length then
      { s with
        objects := s.objects ++ [⟨"polygon", s.drawingVertices⟩]
        toolMode := .select }
    else s
  { s' with drawingVertices := [], isDrawing := false }

/-! ## Export measurements — src/lib/export-utils.ts -/

/-- The `measurement` field of an exported object in `generateExportData`
(export-utils.ts lines 44-47): the polygon area for `type === "polygon"`,
otherwise `getLineLength(obj.vertices[0], obj.vertices[1], ratio)`.  For
an object with fewer than 2 vertices, `vertices[1]` is `undefined` and
`getDistance` throws, modelled as `none`.  (The source formats the number
with `toFixed(2)` and a unit suffix; the model keeps the number.) -/
noncomputable def exportDataMeasurement (obj : MapObject)
    (pixelToMeterRatio : Option ℝ) : Option ℝ :=
  if obj.type = "polygon" then
    some (getPolygonArea obj.vertices pixelToMeterRatio)
  else
    match obj.vertices.get? 0, obj.vertices.get? 1 with
    | some v0, some v1 => some (getLineLength v0 v1 pixelToMeterRatio)
    | _, _ => none

/-- The `measurement` column of a CSV row in `generateCSV` (export-utils.ts
lines 63-66): the same conditional, duplicated inline in the source. -/
noncomputable def csvMeasurement (obj : MapObject)
    (pixelToMeterRatio : Option ℝ) : Option ℝ :=
  if obj.type = "polygon" then
    some (getPolygonArea obj.vertices pixelToMeterRatio)
  else
    match obj.vertices.get? 0, obj.vertices.get? 1 with
    | some v0, some v1 => some (getLineLength v0 v1 pixelToMeterRatio)
    | _, _ => none

end ArchiFieldNote

namespace ArchiFieldNote

/-! ## Theorems -/

theorem pushState_length_le {σ : Type} (maxHistory : Nat) (snapshot : σ)
    (s : UndoState σ) (h : s.history.length ≤ maxHistory) :
    (pushState maxHistory snapshot s).history.length ≤ maxHistory := by
  simp only [pushState]
  split <;>
    simp only [List.length_drop, List.length_append, List.length_take,
      List.length_cons, List.length_nil] at * <;>
    omega

theorem runUndoOps_length_le {σ : Type} (maxHistory : Nat) (ops : List (UndoOp σ)) :
    (runUndoOps maxHistory ops).history.length ≤ maxHistory := by
  suffices h : ∀ (s : UndoState σ), s.history.length ≤ maxHistory →
      (ops.foldl (applyUndoOp maxHistory) s).history.length ≤ maxHistory by
    exact h initialUndoState (by simp [initialUndoState])
  induction ops with
  | nil => intro s hs; simpa using hs
  | cons op rest ih =>
      intro s hs
      refine ih _ ?_
      cases op with
      | push snapshot => exact pushState_length_le maxHistory snapshot s hs
      | stepBack =>
          simp only [applyUndoOp, undo]
          split <;> simpa using hs
      | stepForward =>
          simp only [applyUndoOp, redo]
          split <;> simpa using hs

/-- C1: History traces.  After `push(s1); push(s2); undo()`, the `undo`
call returns snapshot `s1`; a subsequent `redo()` returns `s2`; and after
`push(s1); undo(); push(s3)` a `redo()` returns null.  (Snapshots are the
natural numbers 1, 2, 3; `maxHistory` is the default 50.) -/
theorem C1_history_traces :
    (undo (pushState 50 2 (pushState 50 1 (initialUndoState (σ := Nat))))).1 = some 1 ∧
    (redo (undo (pushState 50 2 (pushState 50 1 (initialUndoState (σ := Nat))))).2).1 =
      some 2 ∧
    (redo (pushState 50 3
      (undo (pushState 50 1 (initialUndoState (σ := Nat)))).2)).1 = none := by
  refine ⟨rfl, rfl, rfl⟩

set_option maxRecDepth 8000 in
/-- C2: In every hook state, `canUndo` holds iff the current index is
positive and `canRedo` holds iff the current index is below
`history.length - 1`; the log of any reachable state never exceeds
`maxHistory` entries; and pushing `maxHistory + 5 = 55` snapshots from the
empty state leaves exactly the 50 newest snapshots with the current index
at the newest entry. -/
theorem C2_history_invariants :
    (∀ (σ : Type) (s : UndoState σ), canUndo s = true ↔ 0 < s.currentIndex) ∧
    (∀ (σ : Type) (s : UndoState σ),
      canRedo s = true ↔ s.currentIndex < (s.history.length : Int) - 1) ∧
    (∀ (σ : Type) (maxHistory : Nat) (ops : List (UndoOp σ)),
      (runUndoOps maxHistory ops).history.length ≤ maxHistory) ∧
    (runUndoOps 50 ((List.range 55).map (fun k => UndoOp.push (k + 1)))).history =
      (List.range 50).map (fun k => k + 6) ∧
    (runUndoOps 50 ((List.range 55).map (fun k => UndoOp.push (k + 1)))).currentIndex
      = 49 := by
  refine ⟨?_, ?_, ?_, ?_, ?_⟩
  · intro σ s; simp [canUndo]
  · intro σ s; simp [canRedo]
  · intro σ maxHistory ops; exact runUndoOps_length_le maxHistory ops
  · rfl
  · rfl

theorem foldl_range_add_sub (f g : ℕ → ℝ) (n : ℕ) (init : ℝ) :
    (List.range n).foldl (fun a i => a + f i - g i) init
      = init + ∑ i in Finset.range n, (f i - g i) := by
  induction n generalizing init with
  | zero => simp
  | succ n ih =>
      rw [List.range_succ, List.foldl_append]
      simp only [List.foldl_cons, List.foldl_nil]
      rw [ih, Finset.sum_range_succ]
      ring

theorem getPolygonArea_eq_shoelace (vs : List Point) (r : ℝ)
    (h3 : 3 ≤ vs.length) (hr : r ≠ 0) :
    getPolygonArea vs (some r) = |shoelaceSum vs| / 2 / (r * r) := by
  have hguard : ¬(vs.length < 3 ∨ (some r : Option ℝ).getD 0 = 0) := by
    push_neg
    exact ⟨by omega, by simpa using hr⟩
  unfold getPolygonArea
  rw [if_neg hguard]
  show |(List.range vs.length).foldl
      (fun area i => area
        + (vs.getD i origin).x * (vs.getD ((i + 1) % vs.length) origin).y
        - (vs.getD ((i + 1) % vs.length) origin).x * (vs.getD i origin).y) 0|
      / 2 / (r * r) = _
  rw [foldl_range_add_sub
    (fun i => (vs.getD i origin).x * (vs.getD ((i + 1) % vs.length) origin).y)
    (fun i => (vs.getD ((i + 1) % vs.length) origin).x * (vs.getD i origin).y)
    vs.length 0]
  rw [zero_add]
  rfl

theorem getPolygonArea_of_guard (vs : List Point) (ratio : Option ℝ)
    (h : vs.length < 3 ∨ ratio.getD 0 = 0) : getPolygonArea vs ratio = 0 := by
  unfold getPolygonArea
  rw [if_pos h]

/-- C3: `getPolygonArea` returns the absolute value of the shoelace sum,
halved, divided by the squared calibration ratio; and it returns 0 when
the ring has fewer than 3 vertices or no ratio is set. -/
theorem C3_polygon_area :
    (∀ (vs : List Point) (r : ℝ), 3 ≤ vs.length → r ≠ 0 →
      getPolygonArea vs (some r) = |shoelaceSum vs| / 2 / r ^ 2) ∧
    (∀ (vs : List Point) (ratio : Option ℝ), vs.length < 3 →
      getPolygonArea vs ratio = 0) ∧
    (∀ vs : List Point, getPolygonArea vs none = 0) := by
  refine ⟨?_, ?_, ?_⟩
  · intro vs r h3 hr
    rw [getPolygonArea_eq_shoelace vs r h3 hr, sq]
  · intro vs ratio h
    exact getPolygonArea_of_guard vs ratio (Or.inl h)
  · intro vs
    exact getPolygonArea_of_guard vs none (Or.inr rfl)

/-- Witness for C3 at the triangle `(0,0), (4,0), (0,4)` and ratio 2. -/
theorem C3_polygon_area_witness :
    3 ≤ ([⟨0, 0⟩, ⟨4, 0⟩, ⟨0, 4⟩] : List Point).length ∧ (2 : ℝ) ≠ 0 ∧
    getPolygonArea [⟨0, 0⟩, ⟨4, 0⟩, ⟨0, 4⟩] (some 2)
      = |shoelaceSum [⟨0, 0⟩, ⟨4, 0⟩, ⟨0, 4⟩]| / 2 / (2 : ℝ) ^ 2 :=
  ⟨by norm_num, by norm_num,
    C3_polygon_area.1 [⟨0, 0⟩, ⟨4, 0⟩, ⟨0, 4⟩] 2 (by norm_num) (by norm_num)⟩

theorem getDistance_horizontal (x1 x2 y : ℝ) (h : x1 ≤ x2) :
    getDistance ⟨x1, y⟩ ⟨x2, y⟩ = x2 - x1 := by
  unfold getDistance
  rw [show (x2 - x1) ^ 2 + (y - y) ^ 2 = (x2 - x1) ^ 2 by ring,
    Real.sqrt_sq (by linarith)]

/-- C4: completing a calibration stores `pixelDistance / realWorldMeters`;
calibrating the segment `(0,0)–(100,0)` as 5 meters stores a ratio of 20,
and a 20×20-pixel square polygon then measures exactly 1 m². -/
theorem C4_calibration :
    (∀ (project : ProjectState) (points : CalibrationPoints)
        (realWorldMeters pixelDistance : ℝ),
      (setCalibration project points realWorldMeters pixelDistance).pixelToMeterRatio
        = some (pixelDistance / realWorldMeters)) ∧
    (∀ project : ProjectState,
      (completeCalibration project ⟨0, 0⟩ ⟨100, 0⟩ 5).pixelToMeterRatio = some 20) ∧
    (∀ project : ProjectState,
      getPolygonArea [⟨30, 40⟩, ⟨50, 40⟩, ⟨50, 60⟩, ⟨30, 60⟩]
        (completeCalibration project ⟨0, 0⟩ ⟨100, 0⟩ 5).pixelToMeterRatio = 1) := by
  have hdist : getDistance (⟨0, 0⟩ : Point) ⟨100, 0⟩ = 100 := by
    rw [getDistance_horizontal 0 100 0 (by norm_num)]
    norm_num
  have hratio : ∀ project : ProjectState,
      (completeCalibration project ⟨0, 0⟩ ⟨100, 0⟩ 5).pixelToMeterRatio = some 20 := by
    intro project
    unfold completeCalibration setCalibration
    rw [hdist]
    norm_num
  refine ⟨fun _ _ _ _ => rfl, hratio, ?_⟩
  intro project
  rw [hratio project]
  rw [getPolygonArea_eq_shoelace _ 20 (by norm_num) (by norm_num)]
  have hsum : shoelaceSum [⟨30, 40⟩, ⟨50, 40⟩, ⟨50, 60⟩, ⟨30, 60⟩] = 800 := by
    unfold shoelaceSum
    simp [Finset.sum_range_succ, List.getD]
    norm_num
  rw [hsum]
  norm_num

theorem shoelaceSum_rotate (vs : List Point) (k : ℕ) :
    shoelaceSum (vs.rotate k) = shoelaceSum vs := by
  rcases Nat.eq_zero_or_pos vs.length with hn | hn
  · rw [List.length_eq_zero.mp hn, List.rotate_nil]
  · have hget : ∀ m : ℕ, m < vs.length →
        (vs.rotate k).getD m origin = vs.getD ((m + k) % vs.length) origin := by
      intro m hm
      have h1 : m < (vs.rotate k).length := by rw [List.length_rotate]; exact hm
      rw [List.getD_eq_getElem _ _ h1, List.getD_eq_getElem _ _ (Nat.mod_lt _ hn)]
      exact List.getElem_rotate vs k m h1
    unfold shoelaceSum
    rw [List.length_rotate]
    refine Finset.sum_nbij' (fun a => (a + k) % vs.length)
      (fun b => (b + (vs.length - k % vs.length)) % vs.length) ?_ ?_ ?_ ?_ ?_
    · intro a ha
      exact Finset.mem_range.mpr (Nat.mod_lt _ hn)
    · intro b hb
      exact Finset.mem_range.mpr (Nat.mod_lt _ hn)
    · intro a ha
      rw [Finset.mem_range] at ha
      have hm : k % vs.length < vs.length := Nat.mod_lt _ hn
      have hd : vs.length * (k / vs.length) + k % vs.length = k :=
        Nat.div_add_mod k vs.length
      have hexp : vs.length * (k / vs.length + 1)
          = vs.length * (k / vs.length) + vs.length := by ring
      dsimp only
      rw [Nat.mod_add_mod,
        show a + k + (vs.length - k % vs.length)
          = a + vs.length * (k / vs.length + 1) from by omega,
        Nat.add_mul_mod_self_left, Nat.mod_eq_of_lt ha]
    · intro b hb
      rw [Finset.mem_range] at hb
      have hm : k % vs.length < vs.length := Nat.mod_lt _ hn
      have hd : vs.length * (k / vs.length) + k % vs.length = k :=
        Nat.div_add_mod k vs.length
      have hexp : vs.length * (k / vs.length + 1)
          = vs.length * (k / vs.length) + vs.length := by ring
      dsimp only
      rw [Nat.mod_add_mod,
        show b + (vs.length - k % vs.length) + k
          = b + vs.length * (k / vs.length + 1) from by omega,
        Nat.add_mul_mod_self_left, Nat.mod_eq_of_lt hb]
    · intro a ha
      rw [Finset.mem_range] at ha
      rw [hget a ha, hget ((a + 1) % vs.length) (Nat.mod_lt _ hn),
        show ((a + 1) % vs.length + k) % vs.length
          = ((a + k) % vs.length + 1) % vs.length from by
            rw [Nat.mod_add_mod, Nat.mod_add_mod, Nat.add_right_comm]]

theorem shoelaceSum_split (vs : List Point) (m : ℕ) (hm : vs.length = m + 1) :
    shoelaceSum vs
      = (∑ i in Finset.range m,
          ((vs.getD i origin).x * (vs.getD (i + 1) origin).y
            - (vs.getD (i + 1) origin).x * (vs.getD i origin).y))
        + ((vs.getD m origin).x * (vs.getD 0 origin).y
            - (vs.getD 0 origin).x * (vs.getD m origin).y) := by
  unfold shoelaceSum
  rw [hm, Finset.sum_range_succ]
  congr 1
  · refine Finset.sum_congr rfl ?_
    intro i hi
    rw [Finset.mem_range] at hi
    rw [Nat.mod_eq_of_lt (by omega : i + 1 < m + 1)]
  · rw [Nat.mod_self]

theorem shoelaceSum_reverse (vs : List Point) :
    shoelaceSum vs.reverse = -shoelaceSum vs := by
  rcases Nat.eq_zero_or_pos vs.length with hn | hn
  · rw [List.length_eq_zero.mp hn]
    simp [shoelaceSum]
  · obtain ⟨m, hm⟩ : ∃ m, vs.length = m + 1 := ⟨vs.length - 1, by omega⟩
    have hrev : ∀ j : ℕ, j < vs.length →
        vs.reverse.getD j origin = vs.getD (m - j) origin := by
      intro j hj
      have h1 : j < vs.reverse.length := by rw [List.length_reverse]; exact hj
      rw [List.getD_eq_getElem _ _ h1,
        List.getD_eq_getElem _ _ (by omega : m - j < vs.length),
        List.getElem_reverse]
      simp only [show vs.length - 1 - j = m - j from by omega]
    rw [shoelaceSum_split vs m hm,
      shoelaceSum_split vs.reverse m (by rw [List.length_reverse]; exact hm),
      Finset.sum_congr rfl (fun i hi => by
        have hi' := Finset.mem_range.mp hi
        rw [hrev i (by omega), hrev (i + 1) (by omega),
          show m - i = m - 1 - i + 1 from by omega,
          show m - (i + 1) = m - 1 - i from by omega]),
      Finset.sum_range_reflect
        (fun j => (vs.getD (j + 1) origin).x * (vs.getD j origin).y
          - (vs.getD j origin).x * (vs.getD (j + 1) origin).y) m,
      hrev m (by omega), hrev 0 (by omega),
      show m - m = 0 from by omega, show m - 0 = m from rfl,
      neg_add, ← Finset.sum_neg_distrib]
    congr 1
    · refine Finset.sum_congr rfl ?_
      intro j hj
      ring
    · ring

/-- C5: `getPolygonArea` is invariant under rotation of the vertex list
and under reversal of the winding order, and for a positive ratio `r` the
area with ratio `r` is the area with ratio 1 divided by `r²`. -/
theorem C5_area_invariances :
    (∀ (vs : List Point) (k : ℕ) (ratio : Option ℝ), 3 ≤ vs.length →
      getPolygonArea (vs.rotate k) ratio = getPolygonArea vs ratio) ∧
    (∀ (vs : List Point) (ratio : Option ℝ), 3 ≤ vs.length →
      getPolygonArea vs.reverse ratio = getPolygonArea vs ratio) ∧
    (∀ (vs : List Point) (r : ℝ), 0 < r →
      getPolygonArea vs (some r) = getPolygonArea vs (some 1) / r ^ 2) := by
  have harea : ∀ (vs ws : List Point) (ratio : Option ℝ), 3 ≤ vs.length →
      ws.length = vs.length → |shoelaceSum ws| = |shoelaceSum vs| →
      getPolygonArea ws ratio = getPolygonArea vs ratio := by
    intro vs ws ratio h3 hlen habs
    by_cases hz : ratio.getD 0 = 0
    · rw [getPolygonArea_of_guard _ _ (Or.inr hz),
        getPolygonArea_of_guard _ _ (Or.inr hz)]
    · obtain ⟨r, rfl⟩ : ∃ r : ℝ, ratio = some r := by
        cases ratio with
        | none => exact absurd rfl hz
        | some r => exact ⟨r, rfl⟩
      have hr : r ≠ 0 := by simpa using hz
      rw [getPolygonArea_eq_shoelace _ _ (by rw [hlen]; exact h3) hr,
        getPolygonArea_eq_shoelace _ _ h3 hr, habs]
  refine ⟨?_, ?_, ?_⟩
  · intro vs k ratio h3
    exact harea vs (vs.rotate k) ratio h3 (List.length_rotate vs k)
      (by rw [shoelaceSum_rotate])
  · intro vs ratio h3
    exact harea vs vs.reverse ratio h3 (List.length_reverse vs)
      (by rw [shoelaceSum_reverse, abs_neg])
  · intro vs r hr
    by_cases h3 : vs.length < 3
    · rw [getPolygonArea_of_guard _ _ (Or.inl h3),
        getPolygonArea_of_guard _ _ (Or.inl h3), zero_div]
    · push_neg at h3
      rw [getPolygonArea_eq_shoelace vs r h3 hr.ne',
        getPolygonArea_eq_shoelace vs 1 h3 one_ne_zero, one_mul, div_one,
        pow_two]

/-- Witness for C5 at the triangle `(0,0), (4,0), (0,4)`, rotation 1shift,
reversal, and ratio 2. -/
theorem C5_area_invariances_witness :
    3 ≤ ([⟨0, 0⟩, ⟨4, 0⟩, ⟨0, 4⟩] : List Point).length ∧ (0 : ℝ) < 2 ∧
    getPolygonArea (([⟨0, 0⟩, ⟨4, 0⟩, ⟨0, 4⟩] : List Point).rotate 1) (some 2)
      = getPolygonArea [⟨0, 0⟩, ⟨4, 0⟩, ⟨0, 4⟩] (some 2) ∧
    getPolygonArea ([⟨0, 0⟩, ⟨4, 0⟩, ⟨0, 4⟩] : List Point).reverse (some 2)
      = getPolygonArea [⟨0, 0⟩, ⟨4, 0⟩, ⟨0, 4⟩] (some 2) ∧
    getPolygonArea [⟨0, 0⟩, ⟨4, 0⟩, ⟨0, 4⟩] (some 2)
      = getPolygonArea [⟨0, 0⟩, ⟨4, 0⟩, ⟨0, 4⟩] (some 1) / (2 : ℝ) ^ 2 :=
  ⟨by norm_num, by norm_num,
    C5_area_invariances.1 _ 1 _ (by norm_num),
    C5_area_invariances.2.1 _ _ (by norm_num),
    C5_area_invariances.2.2 _ 2 (by norm_num)⟩

/-- C6: the even-odd ray-casting test returns false for every point when
the ring has fewer than 3 vertices (0, 1 or 2 points, at any
coordinates). -/
theorem C6_degenerate_rings (p : Point) (vertices : List Point)
    (h : vertices.length < 3) : isPointInPolygon p vertices = false := by
  match vertices with
  | [] => rfl
  | [a] =>
      unfold isPointInPolygon
      rw [show ([a] : List Point).length = 1 from rfl,
        show List.range 1 = [0] from rfl]
      simp only [List.foldl_cons, List.foldl_nil]
      rw [if_neg]
      rintro ⟨hne, -⟩
      exact hne rfl
  | [a, b] =>
      unfold isPointInPolygon
      rw [show ([a, b] : List Point).length = 2 from rfl,
        show List.range 2 = [0, 1] from rfl]
      simp only [List.foldl_cons, List.foldl_nil]
      rw [show (0 + 2 - 1) % 2 = 1 from rfl, show (1 + 2 - 1) % 2 = 0 from rfl,
        show ([a, b] : List Point).getD 0 origin = a from rfl,
        show ([a, b] : List Point).getD 1 origin = b from rfl]
      by_cases hy : (a.y > p.y) ≠ (b.y > p.y)
      · have hne : b.y - a.y ≠ 0 := by
          intro hEq
          exact hy (by rw [show a.y = b.y from by linarith])
        have hne' : a.y - b.y ≠ 0 := fun hEq => hne (by linarith)
        have hx : (b.x - a.x) * (p.y - a.y) / (b.y - a.y) + a.x
            = (a.x - b.x) * (p.y - b.y) / (a.y - b.y) + b.x := by
          field_simp
          ring
        by_cases hpx : p.x < (b.x - a.x) * (p.y - a.y) / (b.y - a.y) + a.x
        · rw [if_pos ⟨hy.symm, by rw [← hx]; exact hpx⟩, if_pos ⟨hy, hpx⟩]
          rfl
        · rw [if_neg (fun hc => hpx (by rw [hx]; exact hc.2)),
            if_neg (fun hc => hpx hc.2)]
      · rw [if_neg (fun hc => hy (Ne.symm hc.1)), if_neg (fun hc => hy hc.1)]
  | a :: b :: c :: t =>
      simp only [List.length_cons] at h
      omega

/-- Witness for C6 at the 2-vertex ring `(0,0), (10,0)` and the point
`(5,5)`. -/
theorem C6_degenerate_rings_witness :
    ([⟨0, 0⟩, ⟨10, 0⟩] : List Point).length < 3 ∧
    isPointInPolygon ⟨5, 5⟩ [⟨0, 0⟩, ⟨10, 0⟩] = false :=
  ⟨by norm_num, C6_degenerate_rings ⟨5, 5⟩ [⟨0, 0⟩, ⟨10, 0⟩] (by norm_num)⟩

theorem getDistance_self (p : Point) : getDistance p p = 0 := by
  unfold getDistance
  simp

theorem isPointInPolygon_singleton (p a : Point) :
    isPointInPolygon p [a] = false := by
  unfold isPointInPolygon
  rw [show ([a] : List Point).length = 1 from rfl,
    show List.range 1 = [0] from rfl]
  simp only [List.foldl_cons, List.foldl_nil]
  rw [if_neg]
  rintro ⟨hne, -⟩
  exact hne rfl

/-- C7 (amended): the geometry functions tolerate zero-length inputs —
`getDistance` of a point with itself is 0, `isPointInPolygon` and
`isPointNearPath` return false on empty and single-point lists,
`isPointNearLine` on a zero-length segment degenerates to a distance test
against the start point, `getPolygonArea`, `getPolylineLength` and
`getLineLength` return 0, and `drawHatchPattern` on a single-point list
emits no primitives — with the exception of `drawHatchPattern` on an
empty vertex list, which throws (`vertices[0].x` on `undefined`),
modelled as `none`. -/
theorem C7_zero_length_inputs :
    (∀ p : Point, getDistance p p = 0) ∧
    (∀ (p a : Point),
      isPointInPolygon p [] = false ∧ isPointInPolygon p [a] = false) ∧
    (∀ (p a : Point) (threshold : ℝ),
      isPointNearPath p [] threshold = false ∧
      isPointNearPath p [a] threshold = false) ∧
    (∀ (p a : Point) (threshold : ℝ),
      isPointNearLine p a a threshold = true ↔ getDistance p a < threshold) ∧
    (∀ (a : Point) (ratio : Option ℝ),
      getPolygonArea [] ratio = 0 ∧ getPolygonArea [a] ratio = 0) ∧
    (∀ (a : Point) (ratio : Option ℝ),
      getPolylineLength [] ratio = 0 ∧ getPolylineLength [a] ratio = 0) ∧
    (∀ (a : Point) (ratio : Option ℝ), getLineLength a a ratio = 0) ∧
    (∀ (a : Point) (pattern : HatchPattern) (color : String)
        (spacing lineWidth : ℝ),
      drawHatchPattern [a] pattern color spacing lineWidth = some []) ∧
    (∀ (pattern : HatchPattern) (color : String) (spacing lineWidth : ℝ),
      drawHatchPattern [] pattern color spacing lineWidth = none) := by
  refine ⟨getDistance_self, fun p a => ⟨rfl, isPointInPolygon_singleton p a⟩,
    fun p a threshold => ⟨rfl, rfl⟩,
    ?_, ?_, ?_, ?_, ?_, fun pattern color spacing lineWidth => rfl⟩
  · intro p a threshold
    have key : isPointNearLine p a a threshold
        = decide (Real.sqrt ((p.x - a.x) * (p.x - a.x)
            + (p.y - a.y) * (p.y - a.y)) < threshold) := by
      unfold isPointNearLine
      norm_num
    rw [key, decide_eq_true_iff]
    unfold getDistance
    rw [show (p.x - a.x) * (p.x - a.x) + (p.y - a.y) * (p.y - a.y)
      = (a.x - p.x) ^ 2 + (a.y - p.y) ^ 2 from by ring]
  · intro a ratio
    exact ⟨getPolygonArea_of_guard _ _ (Or.inl (by norm_num)),
      getPolygonArea_of_guard _ _ (Or.inl (by norm_num))⟩
  · intro a ratio
    constructor
    · unfold getPolylineLength
      rw [if_pos (by norm_num)]
    · unfold getPolylineLength
      rw [if_pos (by norm_num)]
  · intro a ratio
    simp [getLineLength, getDistance_self, zero_div]
  · intro a pattern color spacing lineWidth
    simp [drawHatchPattern, floatLoop, sub_self, min_self, max_self,
      zero_div, ite_self]

/-- C7 counterexample: `drawHatchPattern` does not tolerate an empty
vertex list — `ctx.moveTo(vertices[0].x, vertices[0].y)` dereferences
`undefined` and throws, modelled as `none` instead of a returned
primitive list. -/
theorem C7_hatch_empty_counterexample :
    drawHatchPattern [] HatchPattern.diagonal "#000000" 10 1 = none := rfl

theorem handlePointerMove_append (sm : ℝ) (c : Point) (s : CanvasState)
    (hmode : s.toolMode = ToolMode.freehand ∨ s.toolMode = ToolMode.highlighter)
    (hdraw : s.isDrawing = true) (h : s.drawingVertices ≠ [])
    (hc : (if sm = 0 then (3 : ℝ) else sm)
      < getDistance (s.drawingVertices.getLast h) c) :
    handlePointerMove sm c s
      = { s with drawingVertices := s.drawingVertices ++ [c] } := by
  unfold handlePointerMove
  rw [hdraw, if_neg (by simp), if_pos hmode,
    List.getLast?_eq_getLast_of_ne_nil h]
  exact if_pos hc

theorem getLast_of_singleton (l : List Point) (hl : l ≠ []) (p0 : Point)
    (h : l = [p0]) : l.getLast hl = p0 := by
  subst h
  rfl

theorem freehand_moves (sm : ℝ) (moves : List Point) : ∀ (s : CanvasState),
    (s.toolMode = ToolMode.freehand ∨ s.toolMode = ToolMode.highlighter) →
    s.isDrawing = true →
    ∀ (h : s.drawingVertices ≠ []),
    List.Chain (fun p q => (if sm = 0 then (3 : ℝ) else sm) < getDistance p q)
      (s.drawingVertices.getLast h) moves →
    (moves.foldl (fun st c => handlePointerMove sm c st) s).drawingVertices
      = s.drawingVertices ++ moves := by
  induction moves with
  | nil => intro s _ _ _ _; simp
  | cons c rest ih =>
      intro s hmode hdraw h hchain
      rw [List.chain_cons] at hchain
      obtain ⟨hc, hrest⟩ := hchain
      rw [List.foldl_cons, handlePointerMove_append sm c s hmode hdraw h hc]
      have h' : ({ s with drawingVertices := s.drawingVertices ++ [c] }
          : CanvasState).drawingVertices ≠ [] := by simp
      have hlast : ({ s with drawingVertices := s.drawingVertices ++ [c] }
          : CanvasState).drawingVertices.getLast h' = c := by
        simp [List.getLast_append]
      rw [ih { s with drawingVertices := s.drawingVertices ++ [c] } hmode hdraw
        h' (by rw [hlast]; exact hrest)]
      simp

/-- C8 (amended): in freehand/highlighter mode pointer-down restarts the
buffer at the clicked point; a pointer-move appends its point exactly when
it is farther than the smoothing threshold (`freehandSmoothing || 3`) from
the last buffered point — a move at or within the threshold leaves the
state unchanged — so `n` qualifying moves grow the buffer to `n + 1`
points; pointer-up commits the buffer as a freehand object iff it holds
more than 5 points; with at most 5 points nothing is committed and the
handler returns with the state — including the buffer — unchanged (the
buffer is not discarded at pointer-up; it is only reset by a later
pointer-down or an explicit cancel). -/
theorem C8_freehand_buffer :
    (∀ (c : Point) (s : CanvasState),
      (s.toolMode = ToolMode.freehand ∨ s.toolMode = ToolMode.highlighter) →
      (handlePointerDown c s).drawingVertices = [c] ∧
      (handlePointerDown c s).isDrawing = true) ∧
    (∀ (sm : ℝ) (c : Point) (s : CanvasState),
      (s.toolMode = ToolMode.freehand ∨ s.toolMode = ToolMode.highlighter) →
      s.isDrawing = true →
      ∀ (h : s.drawingVertices ≠ []),
      ((if sm = 0 then (3 : ℝ) else sm)
          < getDistance (s.drawingVertices.getLast h) c →
        (handlePointerMove sm c s).drawingVertices
          = s.drawingVertices ++ [c]) ∧
      (getDistance (s.drawingVertices.getLast h) c
          ≤ (if sm = 0 then (3 : ℝ) else sm) →
        handlePointerMove sm c s = s)) ∧
    (∀ (sm : ℝ) (p0 : Point) (moves : List Point) (s : CanvasState),
      (s.toolMode = ToolMode.freehand ∨ s.toolMode = ToolMode.highlighter) →
      s.isDrawing = true → s.drawingVertices = [p0] →
      List.Chain (fun p q => (if sm = 0 then (3 : ℝ) else sm) < getDistance p q)
        p0 moves →
      (moves.foldl (fun st c => handlePointerMove sm c st) s).drawingVertices.length
        = moves.length + 1) ∧
    (∀ s : CanvasState,
      (s.toolMode = ToolMode.freehand ∨ s.toolMode = ToolMode.highlighter) →
      s.isDrawing = true → 5 < s.drawingVertices.length →
      (handlePointerUp s).objects
        = s.objects ++ [⟨"freehand", s.drawingVertices⟩] ∧
      (handlePointerUp s).drawingVertices = [] ∧
      (handlePointerUp s).isDrawing = false) ∧
    (∀ s : CanvasState,
      (s.toolMode = ToolMode.freehand ∨ s.toolMode = ToolMode.highlighter) →
      s.isDrawing = true → s.drawingVertices.length ≤ 5 →
      handlePointerUp s = s) := by
  refine ⟨?_, ?_, ?_, ?_, ?_⟩
  · intro c s hmode
    constructor <;>
      · unfold handlePointerDown
        rcases hmode with hm | hm <;> simp [hm]
  · intro sm c s hmode hdraw h
    constructor
    · intro hc
      rw [handlePointerMove_append sm c s hmode hdraw h hc]
    · intro hc
      unfold handlePointerMove
      rw [hdraw, if_neg (by simp), if_pos hmode,
        List.getLast?_eq_getLast_of_ne_nil h]
      exact if_neg (not_lt.mpr hc)
  · intro sm p0 moves s hmode hdraw hbuf hchain
    have h : s.drawingVertices ≠ [] := by rw [hbuf]; simp
    have hlast : s.drawingVertices.getLast h = p0 :=
      getLast_of_singleton _ h p0 hbuf
    rw [freehand_moves sm moves s hmode hdraw h (by rw [hlast]; exact hchain),
      hbuf]
    simp [Nat.add_comm]
  · intro s hmode hdraw hlen
    unfold handlePointerUp
    rw [if_pos ⟨hmode, hdraw, hlen⟩]
    exact ⟨rfl, rfl, rfl⟩
  · intro s hmode hdraw hlen
    unfold handlePointerUp
    rw [if_neg (fun hcond => absurd hcond.2.2 (by omega)),
      if_neg (fun hcond => by
        rcases hmode with hm | hm <;> rcases hcond.1 with h | h | h <;>
          rw [hm] at h <;> exact ToolMode.noConfusion h)]

/-- Witness for C8 at concrete pointer sequences: a pointer-down at the
scene origin; under the default smoothing threshold 3 a single move 5
pixels away is appended while a move 1 pixel away leaves the state
untouched; one qualifying move grows the buffer to 2 points; pointer-up
commits a 6-point buffer and is a no-op on a 3-point buffer. -/
theorem C8_freehand_buffer_witness :
    (handlePointerDown ⟨0, 0⟩
      { toolMode := ToolMode.freehand, drawingVertices := [], isDrawing := false,
        objects := [], pendingCalibration := none }).drawingVertices = [⟨0, 0⟩] ∧
    (handlePointerMove 0 ⟨5, 0⟩
      { toolMode := ToolMode.freehand, drawingVertices := [⟨0, 0⟩],
        isDrawing := true, objects := [],
        pendingCalibration := none }).drawingVertices = [⟨0, 0⟩, ⟨5, 0⟩] ∧
    handlePointerMove 0 ⟨1, 0⟩
      { toolMode := ToolMode.freehand, drawingVertices := [⟨0, 0⟩],
        isDrawing := true, objects := [], pendingCalibration := none }
      = { toolMode := ToolMode.freehand, drawingVertices := [⟨0, 0⟩],
          isDrawing := true, objects := [], pendingCalibration := none } ∧
    (([⟨5, 0⟩] : List Point).foldl (fun st c => handlePointerMove 0 c st)
      { toolMode := ToolMode.freehand, drawingVertices := [⟨0, 0⟩],
        isDrawing := true, objects := [],
        pendingCalibration := none }).drawingVertices.length = 2 ∧
    (handlePointerUp
      { toolMode := ToolMode.freehand,
        drawingVertices := [⟨0, 0⟩, ⟨1, 0⟩, ⟨2, 0⟩, ⟨3, 0⟩, ⟨4, 0⟩, ⟨5, 0⟩],
        isDrawing := true, objects := [], pendingCalibration := none }).objects
      = [⟨"freehand", [⟨0, 0⟩, ⟨1, 0⟩, ⟨2, 0⟩, ⟨3, 0⟩, ⟨4, 0⟩, ⟨5, 0⟩]⟩] ∧
    handlePointerUp
      { toolMode := ToolMode.freehand, drawingVertices := [⟨0, 0⟩, ⟨1, 0⟩, ⟨2, 0⟩],
        isDrawing := true, objects := [], pendingCalibration := none }
      = { toolMode := ToolMode.freehand, drawingVertices := [⟨0, 0⟩, ⟨1, 0⟩, ⟨2, 0⟩],
          isDrawing := true, objects := [], pendingCalibration := none } := by
  have hchain : List.Chain
      (fun p q => (if (0 : ℝ) = 0 then (3 : ℝ) else 0) < getDistance p q)
      ⟨0, 0⟩ [⟨5, 0⟩] := by
    refine List.chain_cons.mpr ⟨?_, List.Chain.nil⟩
    rw [if_pos rfl, getDistance_horizontal 0 5 0 (by norm_num)]
    norm_num
  have hfar : (if (0 : ℝ) = 0 then (3 : ℝ) else 0)
      < getDistance ⟨0, 0⟩ ⟨5, 0⟩ := by
    rw [if_pos rfl, getDistance_horizontal 0 5 0 (by norm_num)]
    norm_num
  have hnear : getDistance (⟨0, 0⟩ : Point) ⟨1, 0⟩
      ≤ if (0 : ℝ) = 0 then (3 : ℝ) else 0 := by
    rw [if_pos rfl, getDistance_horizontal 0 1 0 (by norm_num)]
    norm_num
  exact ⟨(C8_freehand_buffer.1 ⟨0, 0⟩ _ (Or.inl rfl)).1,
    (C8_freehand_buffer.2.1 0 ⟨5, 0⟩ _ (Or.inl rfl) rfl (by simp)).1 hfar,
    (C8_freehand_buffer.2.1 0 ⟨1, 0⟩ _ (Or.inl rfl) rfl (by simp)).2 hnear,
    C8_freehand_buffer.2.2.1 0 ⟨0, 0⟩ [⟨5, 0⟩] _ (Or.inl rfl) rfl rfl hchain,
    (C8_freehand_buffer.2.2.2.1 _ (Or.inl rfl) rfl (by norm_num)).1,
    C8_freehand_buffer.2.2.2.2 _ (Or.inl rfl) rfl (by norm_num)⟩

/-- C8 counterexample: pointer-up with a 3-point freehand buffer leaves
the buffer exactly as it was — the claimed "discards the buffer" does not
happen (no handler branch clears it). -/
theorem C8_buffer_not_discarded_counterexample :
    (handlePointerUp
      { toolMode := ToolMode.freehand, drawingVertices := [⟨0, 0⟩, ⟨1, 0⟩, ⟨2, 0⟩],
        isDrawing := true, objects := [],
        pendingCalibration := none }).drawingVertices
      = [⟨0, 0⟩, ⟨1, 0⟩, ⟨2, 0⟩] ∧
    ([(⟨0, 0⟩ : Point), ⟨1, 0⟩, ⟨2, 0⟩] : List Point) ≠ [] := by
  exact ⟨rfl, by simp⟩

/-- C9: the polygon finish action with fewer than 3 buffered vertices
commits nothing, clears the buffer and keeps the tool mode; with 3 or
more vertices it commits a polygon with exactly the buffered vertices and
returns the tool to select. -/
theorem C9_finish_polygon :
    (∀ s : CanvasState, s.drawingVertices.length < 3 →
      (finishPolygon s).objects = s.objects ∧
      (finishPolygon s).drawingVertices = [] ∧
      (finishPolygon s).isDrawing = false ∧
      (finishPolygon s).toolMode = s.toolMode) ∧
    (∀ s : CanvasState, 3 ≤ s.drawingVertices.length →
      (finishPolygon s).objects = s.objects ++ [⟨"polygon", s.drawingVertices⟩] ∧
      (finishPolygon s).toolMode = ToolMode.select ∧
      (finishPolygon s).drawingVertices = [] ∧
      (finishPolygon s).isDrawing = false) := by
  constructor
  · intro s h
    simp only [finishPolygon]
    rw [if_neg (by omega)]
    simp
  · intro s h
    simp only [finishPolygon]
    rw [if_pos h]
    simp

/-- Witness for C9: finishing with the 2-vertex buffer `(0,0), (10,0)`
commits nothing and stays in polygon mode; finishing with the 3-vertex
buffer `(0,0), (10,0), (0,10)` commits that polygon and selects. -/
theorem C9_finish_polygon_witness :
    (finishPolygon
      { toolMode := ToolMode.polygon, drawingVertices := [⟨0, 0⟩, ⟨10, 0⟩],
        isDrawing := true, objects := [], pendingCalibration := none }).objects
      = [] ∧
    (finishPolygon
      { toolMode := ToolMode.polygon, drawingVertices := [⟨0, 0⟩, ⟨10, 0⟩],
        isDrawing := true, objects := [],
        pendingCalibration := none }).drawingVertices = [] ∧
    (finishPolygon
      { toolMode := ToolMode.polygon, drawingVertices := [⟨0, 0⟩, ⟨10, 0⟩],
        isDrawing := true, objects := [], pendingCalibration := none }).toolMode
      = ToolMode.polygon ∧
    (finishPolygon
      { toolMode := ToolMode.polygon,
        drawingVertices := [⟨0, 0⟩, ⟨10, 0⟩, ⟨0, 10⟩], isDrawing := true,
        objects := [], pendingCalibration := none }).objects
      = [⟨"polygon", [⟨0, 0⟩, ⟨10, 0⟩, ⟨0, 10⟩]⟩] ∧
    (finishPolygon
      { toolMode := ToolMode.polygon,
        drawingVertices := [⟨0, 0⟩, ⟨10, 0⟩, ⟨0, 10⟩], isDrawing := true,
        objects := [], pendingCalibration := none }).toolMode
      = ToolMode.select :=
  ⟨(C9_finish_polygon.1 _ (by norm_num)).1,
    (C9_finish_polygon.1 _ (by norm_num)).2.1,
    (C9_finish_polygon.1 _ (by norm_num)).2.2.2,
    (C9_finish_polygon.2 _ (by norm_num)).1,
    (C9_finish_polygon.2 _ (by norm_num)).2.1⟩

/-- C10: for every exported object whose type is not `"polygon"`, the
measurement written to the export JSON and to the CSV summary is the
straight-line distance between the first two vertices divided by the
calibration ratio, and it depends only on `vertices[0]` and `vertices[1]`
however many vertices the object has. -/
theorem C10_export_measurement :
    ∀ (t : String) (v0 v1 : Point) (rest : List Point) (r : ℝ),
      t ≠ "polygon" → r ≠ 0 →
      exportDataMeasurement ⟨t, v0 :: v1 :: rest⟩ (some r)
        = some (getDistance v0 v1 / r) ∧
      csvMeasurement ⟨t, v0 :: v1 :: rest⟩ (some r)
        = some (getDistance v0 v1 / r) ∧
      exportDataMeasurement ⟨t, v0 :: v1 :: rest⟩ (some r)
        = exportDataMeasurement ⟨t, [v0, v1]⟩ (some r) := by
  intro t v0 v1 rest r ht hr
  have hline : getLineLength v0 v1 (some r) = getDistance v0 v1 / r := by
    unfold getLineLength
    rw [if_neg (by simpa using hr)]
    rfl
  refine ⟨?_, ?_, ?_⟩
  · unfold exportDataMeasurement
    rw [if_neg ht]
    show some (getLineLength v0 v1 (some r)) = _
    rw [hline]
  · unfold csvMeasurement
    rw [if_neg ht]
    show some (getLineLength v0 v1 (some r)) = _
    rw [hline]
  · unfold exportDataMeasurement
    rw [if_neg ht, if_neg ht]
    rfl

/-- Witness for C10 at a 3-vertex freehand object with ratio 2. -/
theorem C10_export_measurement_witness :
    ("freehand" : String) ≠ "polygon" ∧ (2 : ℝ) ≠ 0 ∧
    exportDataMeasurement ⟨"freehand", [⟨0, 0⟩, ⟨3, 4⟩, ⟨100, 100⟩]⟩ (some 2)
      = some (getDistance ⟨0, 0⟩ ⟨3, 4⟩ / 2) ∧
    csvMeasurement ⟨"freehand", [⟨0, 0⟩, ⟨3, 4⟩, ⟨100, 100⟩]⟩ (some 2)
      = some (getDistance ⟨0, 0⟩ ⟨3, 4⟩ / 2) :=
  ⟨by decide, by norm_num,
    (C10_export_measurement "freehand" ⟨0, 0⟩ ⟨3, 4⟩ [⟨100, 100⟩] 2
      (by decide) (by norm_num)).1,
    (C10_export_measurement "freehand" ⟨0, 0⟩ ⟨3, 4⟩ [⟨100, 100⟩] 2
      (by decide) (by norm_num)).2.1⟩

end ArchiFieldNote
